import Mathlib

/-!
Shallow embedding of `gns3server/core/tasks.py`.

The module defines two factory functions, `create_startup_handler` and
`create_shutdown_handler`.  Each merely defines an inner `async def`
(`start_app` / `shutdown_handler`) and returns it; every effect happens when
the returned coroutine is run.

We embed a run of each coroutine as a function from an environment `Env`
(the outcomes of the external collaborators: database, controller, modules,
port manager state, platform) to a trace of effect events plus a success
flag.  The Python code contains no `try`/`except`, so an exception raised by
any awaited or synchronous call aborts the coroutine immediately: the
embedding stops emitting events at the first failing call and reports
`ok = false`.

Machine detail kept from the source:
  * the asyncio logger is set to ERROR level first;
  * `if sys.platform.startswith("win")`: a recurring wake-up callback is
    scheduled with `loop.call_later(0.5, wakeup)` (interval recorded in
    milliseconds: 500);
  * `if log.getEffectiveLevel() == logging.DEBUG`: `loop.set_debug(True)`;
  * `await connect_to_db(app)`;
  * `computes = await get_computes(app)`;
  * `await Controller.instance().start(computes)`;
  * `asyncio.ensure_future(Qemu.instance().list_images())` — the `Qemu`
    singleton is obtained synchronously, then the coroutine is scheduled and
    never awaited (its eventual outcome is the `listImagesFails` field of the
    environment, which the handler never reads);
  * `for module in MODULES: log.debug(...); m = module.instance();
    m.port_manager = PortManager.instance()` — note that no start hook of any
    kind is invoked on `m`.

Shutdown (`shutdown_handler`):
  * `await HTTPClient.close_session()`;
  * `await Controller.instance().stop()`;
  * `for module in MODULES: log.debug(...); m = module.instance();
    await m.unload()`;
  * `if PortManager.instance().tcp_ports: log.warning(...)` and the same for
    `udp_ports`.

`MODULES`, `PortManager`, `Controller`, `HTTPClient`, `connect_to_db`,
`get_computes` live outside the given sources; their observable outcomes are
parameters of `Env`, except `PortManager.instance()` whose singleton
behaviour is modelled from the spec (see `portManagerInstance`).
-/

/-- Protocol tag for port bookkeeping (`tcp_ports` / `udp_ports`). -/
inductive Protocol : Type
  | tcp
  | udp
  deriving DecidableEq, Repr

/-- One observable effect of a lifecycle-handler run.  The constructors
`startHook` and `logError` are part of the vocabulary so that claims about
start hooks and error logs can be stated; the embedded code never emits
them, mirroring the absence of such calls in `tasks.py`. -/
inductive Event : Type
  | setAsyncioLogLevelError
  | scheduleWakeup (intervalMs : Nat)
  | setLoopDebug
  | connectToDb
  | getComputes
  | controllerStart (computes : List Nat)
  | qemuInstance
  | spawnListImages
  | logDebug (msg : String)
  | getInstance (m : String)
  | pmInstance (a : Nat)
  | inject (m : String) (a : Nat)
  | startHook (m : String)
  | closeSession
  | controllerStop
  | unload (m : String)
  | queryPorts (p : Protocol)
  | warnPorts (p : Protocol) (ports : List Nat)
  | logError (msg : String)
  deriving DecidableEq, Repr

/-- Outcomes of the external collaborators for one run, plus the static
configuration (platform string, known module list, database contents).
A `...Fails` field set to `true` means the corresponding call raises. -/
structure Env : Type where
  platform : String
  debugLog : Bool
  connectFails : Bool
  getComputesFails : Bool
  computes : List Nat
  controllerStartFails : Bool
  listImagesFails : Bool
  modules : List String
  instanceFails : String → Bool
  closeSessionFails : Bool
  controllerStopFails : Bool
  unloadFails : String → Bool
  tcpPorts : List Nat
  udpPorts : List Nat

/-- State of the `PortManager` singleton cell: the current instance (tagged
by a numeric identity) if one exists, and a fresh-identity counter. -/
structure PMState : Type where
  singleton : Option Nat
  fresh : Nat
  deriving DecidableEq, Repr

/-- Modelled from the spec: `PortManager.instance()` is a process-wide
singleton accessor ("created lazily on first access", "creation never starts
background work") — `PortManager` itself is not among the given sources.  It
returns the existing instance, or creates one on first call. -/
def portManagerInstance : PMState → Nat × PMState
  | ⟨some i, c⟩ => (i, ⟨some i, c⟩)
  | ⟨none, c⟩ => (c, ⟨some c, c + 1⟩)

/-- Identity of the instance every `portManagerInstance` call from `st`
onwards returns. -/
def pmFix : PMState → Nat
  | ⟨some i, _⟩ => i
  | ⟨none, c⟩ => c

/-- Result of a `start_app` run: emitted trace, final singleton state, and
whether the coroutine completed without raising. -/
structure StartResult : Type where
  trace : List Event
  pmState : PMState
  ok : Bool

/-- Result of a `shutdown_handler` run. -/
structure ShutdownResult : Type where
  trace : List Event
  ok : Bool

/-- Embedding of Python's `s.startswith("win")`: the character sequence of
`"win"` is a prefix of the character sequence of `s`. -/
def startsWithWin (s : String) : Bool :=
  "win".data.isPrefixOf s.data

/-- The preliminary synchronous statements of `start_app`: asyncio logger to
ERROR, the Windows-only recurring wake-up (`loop.call_later(0.5, wakeup)`),
and the debug-mode `loop.set_debug(True)`. -/
def preSteps (env : Env) : List Event :=
  Event.setAsyncioLogLevelError ::
    ((if startsWithWin env.platform then [Event.scheduleWakeup 500] else []) ++
      (if env.debugLog then [Event.setLoopDebug] else []))

/-- The `for module in MODULES` loop of `start_app`: log, obtain the module
singleton (aborting the whole coroutine if that raises), then evaluate
`PortManager.instance()` and assign it to `m.port_manager`. -/
def loadModules (env : Env) : PMState → List String → List Event × PMState × Bool
  | st, [] => ([], st, true)
  | st, m :: rest =>
    let evs := [Event.logDebug ("Loading module " ++ m), Event.getInstance m]
    if env.instanceFails m then (evs, st, false)
    else
      let p := portManagerInstance st
      let r := loadModules env p.2 rest
      (evs ++ (Event.pmInstance p.1 :: Event.inject m p.1 :: r.1), r.2.1, r.2.2)

/-- The abstract `FastAPI` application handle (only threaded through calls). -/
abbrev App : Type := Nat

/-- One run of the `start_app` coroutine returned by
`create_startup_handler`.  Each awaited step is emitted as an event; an
exception (a `...Fails` flag) aborts the run, since the source has no
exception handler. -/
def start_app (_app : App) (env : Env) (st : PMState) : StartResult :=
  let pre := preSteps env ++ [Event.connectToDb]
  if env.connectFails then ⟨pre, st, false⟩
  else
    let pre := pre ++ [Event.getComputes]
    if env.getComputesFails then ⟨pre, st, false⟩
    else
      let pre := pre ++ [Event.controllerStart env.computes]
      if env.controllerStartFails then ⟨pre, st, false⟩
      else
        let pre := pre ++ [Event.qemuInstance, Event.spawnListImages]
        let r := loadModules env st env.modules
        ⟨pre ++ r.1, r.2.1, r.2.2⟩

/-- The `for module in MODULES` loop of `shutdown_handler`: log, obtain the
singleton, `await m.unload()`; a raising unload aborts the coroutine. -/
def unloadModules (env : Env) : List String → List Event × Bool
  | [] => ([], true)
  | m :: rest =>
    let evs := [Event.logDebug ("Unloading module " ++ m), Event.getInstance m,
      Event.unload m]
    if env.unloadFails m then (evs, false)
    else
      let r := unloadModules env rest
      (evs ++ r.1, r.2)

/-- One run of the `shutdown_handler` coroutine returned by
`create_shutdown_handler`.  The two trailing `if` statements read
`PortManager.instance().tcp_ports` / `.udp_ports` (the `queryPorts` events)
and warn when non-empty. -/
def shutdown_handler (env : Env) : ShutdownResult :=
  if env.closeSessionFails then ⟨[Event.closeSession], false⟩
  else if env.controllerStopFails then
    ⟨[Event.closeSession, Event.controllerStop], false⟩
  else
    let r := unloadModules env env.modules
    let t := Event.closeSession :: Event.controllerStop :: r.1
    if r.2 then
      ⟨t ++ (Event.queryPorts .tcp ::
          (if env.tcpPorts.isEmpty then [] else [Event.warnPorts .tcp env.tcpPorts])) ++
        (Event.queryPorts .udp ::
          (if env.udpPorts.isEmpty then [] else [Event.warnPorts .udp env.udpPorts])),
        true⟩
    else ⟨t, false⟩

/-- `create_startup_handler(app)` only defines the inner coroutine and
returns it: the creation itself emits no events; the pair is (effects of the
factory call, the returned handler). -/
def create_startup_handler (app : App) :
    List Event × (Env → PMState → StartResult) :=
  ([], start_app app)

/-- `create_shutdown_handler(app)` only defines the inner coroutine and
returns it (the `app` argument is unused by the inner coroutine). -/
def create_shutdown_handler (_app : App) : List Event × (Env → ShutdownResult) :=
  ([], shutdown_handler)

/-- Predicate pack: classify events for ordering statements. -/
def isConnect : Event → Bool
  | .connectToDb => true
  | _ => false

/-- Recognize the descriptor-loading event. -/
def isGetComputes : Event → Bool
  | .getComputes => true
  | _ => false

/-- Recognize the `Controller.start` event. -/
def isCtrlStart : Event → Bool
  | .controllerStart _ => true
  | _ => false

/-- Recognize the fire-and-forget scheduling of `Qemu.list_images`. -/
def isSpawn : Event → Bool
  | .spawnListImages => true
  | _ => false

/-- Recognize a `port_manager` injection into a module. -/
def isInject : Event → Bool
  | .inject _ _ => true
  | _ => false

/-- Recognize a module-singleton acquisition. -/
def isGetInstance : Event → Bool
  | .getInstance _ => true
  | _ => false

/-- Recognize any per-module step of the loading loop. -/
def isModuleStep (e : Event) : Bool := isGetInstance e || isInject e

/-- Recognize the recurring wake-up scheduling. -/
def isSchedWakeup : Event → Bool
  | .scheduleWakeup _ => true
  | _ => false

/-- Recognize a module unload. -/
def isUnload : Event → Bool
  | .unload _ => true
  | _ => false

/-- Recognize a leaked-port warning. -/
def isWarn : Event → Bool
  | .warnPorts _ _ => true
  | _ => false

/-- Names of injected modules, in trace order. -/
def injectSeq (tr : List Event) : List String :=
  tr.filterMap fun e => match e with
    | .inject m _ => some m
    | _ => none

/-- Names of unloaded modules, in trace order. -/
def unloadSeq (tr : List Event) : List String :=
  tr.filterMap fun e => match e with
    | .unload m => some m
    | _ => none

/-- Strict ordering of event classes within a trace: every `P`-event occurs
at a smaller index than every `Q`-event. -/
def precedes (P Q : Event → Bool) (tr : List Event) : Prop :=
  ∀ i j : Fin tr.length, P (tr.get i) = true → Q (tr.get j) = true →
    (i : Nat) < (j : Nat)

instance (P Q : Event → Bool) (tr : List Event) : Decidable (precedes P Q tr) := by
  unfold precedes
  infer_instance

/-- Recognize any event the module-loading loop can emit. -/
def isLoadEv : Event → Bool
  | .logDebug _ => true
  | .getInstance _ => true
  | .pmInstance _ => true
  | .inject _ _ => true
  | _ => false

/-- Recognize any event the module-unloading loop can emit. -/
def isUnloadEv : Event → Bool
  | .logDebug _ => true
  | .getInstance _ => true
  | .unload _ => true
  | _ => false

/-- Base environment for concrete runs: a Linux host, two modules, no
failures, no retained ports. -/
def baseEnv : Env where
  platform := "linux"
  debugLog := false
  connectFails := false
  getComputesFails := false
  computes := [7]
  controllerStartFails := false
  listImagesFails := false
  modules := ["dynamips", "qemu"]
  instanceFails := fun _ => false
  closeSessionFails := false
  controllerStopFails := false
  unloadFails := fun _ => false
  tcpPorts := []
  udpPorts := []

/-- Initial singleton state: no `PortManager` exists yet. -/
def st0 : PMState := ⟨none, 0⟩

/-- A fixed application handle for concrete runs. -/
def app0 : App := 0

/-- Environment whose transport-session close raises, with a module to
unload and a retained TCP port. -/
def envC2 : Env :=
  { baseEnv with
      closeSessionFails := true
      modules := ["dynamips"]
      tcpPorts := [2000] }

/-- Environment whose `Controller.stop` raises. -/
def envStop : Env := { baseEnv with controllerStopFails := true }

/-- Environment whose first module's unload raises. -/
def envUnloadFail : Env :=
  { baseEnv with unloadFails := fun m => m == "dynamips" }

/-- Environment whose first module's singleton acquisition raises. -/
def envC5 : Env := { baseEnv with instanceFails := fun m => m == "dynamips" }

/-- Environment whose second module's unload raises while the first one
unloads cleanly. -/
def envUnloadFail2 : Env :=
  { baseEnv with unloadFails := fun m => m == "qemu" }

/-- Environment whose second module's singleton acquisition raises while
the first module loads cleanly. -/
def envC5b : Env := { baseEnv with instanceFails := fun m => m == "qemu" }

/-- Environment of a clean shutdown with a retained TCP port and no
retained UDP port. -/
def envC6 : Env := { baseEnv with tcpPorts := [3080] }

/-- Environment of a run on a Windows platform. -/
def envWin : Env := { baseEnv with platform := "win32" }

/-- Environment whose descriptor loading raises while the persistence
connection succeeds. -/
def envC9 : Env := { baseEnv with getComputesFails := true }

/-- A trace that splits into a `Q`-free prefix and a `P`-free suffix orders
all `P`-events before all `Q`-events. -/
theorem precedes_of_split (P Q : Event → Bool) (l1 l2 : List Event)
    (h1 : ∀ e ∈ l1, Q e = false) (h2 : ∀ e ∈ l2, P e = false) :
    precedes P Q (l1 ++ l2) := by
  intro i j hP hQ
  have hi : (i : Nat) < l1.length := by
    by_contra hge
    push_neg at hge
    have hlt : (i : Nat) - l1.length < l2.length := by
      have := i.isLt
      simp only [List.length_append] at this
      omega
    have hget : (l1 ++ l2).get i = l2.get ⟨(i : Nat) - l1.length, hlt⟩ := by
      simp only [List.get_eq_getElem]
      exact List.getElem_append_right hge
    have hfalse : P (l2.get ⟨(i : Nat) - l1.length, hlt⟩) = false :=
      h2 _ (List.get_mem _ _ _)
    rw [hget, hfalse] at hP
    exact Bool.noConfusion hP
  have hj : l1.length ≤ (j : Nat) := by
    by_contra hlt
    push_neg at hlt
    have hget : (l1 ++ l2).get j = l1.get ⟨(j : Nat), hlt⟩ := by
      simp only [List.get_eq_getElem]
      exact List.getElem_append_left hlt
    have hfalse : Q (l1.get ⟨(j : Nat), hlt⟩) = false := h1 _ (List.get_mem _ _ _)
    rw [hget, hfalse] at hQ
    exact Bool.noConfusion hQ
  omega

/-- Events of the startup preliminary statements are exactly the logger,
wake-up, and debug settings. -/
theorem mem_preSteps {env : Env} {e : Event} (h : e ∈ preSteps env) :
    e = Event.setAsyncioLogLevelError ∨ e = Event.scheduleWakeup 500 ∨
      e = Event.setLoopDebug := by
  unfold preSteps at h
  rcases List.mem_cons.mp h with h0 | h1
  · exact Or.inl h0
  · rcases List.mem_append.mp h1 with h2 | h3
    · split at h2 <;> simp_all
    · split at h3 <;> simp_all

/-- The module-loading loop emits only per-module loading events. -/
theorem loadModules_events (env : Env) :
    ∀ (st : PMState) (ms : List String), ∀ e ∈ (loadModules env st ms).1,
      isLoadEv e = true := by
  intro st ms
  induction ms generalizing st with
  | nil => intro e he; simp [loadModules] at he
  | cons m rest ih =>
    intro e he
    unfold loadModules at he
    by_cases hf : env.instanceFails m
    · simp [hf] at he
      rcases he with h | h <;> simp [h, isLoadEv]
    · simp [hf] at he
      rcases he with h | h | h | h | h
      · simp [h, isLoadEv]
      · simp [h, isLoadEv]
      · simp [h, isLoadEv]
      · simp [h, isLoadEv]
      · exact ih _ _ h

/-- The current-or-next singleton identity is returned by the accessor and
is preserved by it. -/
theorem portManagerInstance_fix (st : PMState) :
    (portManagerInstance st).1 = pmFix st ∧
      pmFix (portManagerInstance st).2 = pmFix st := by
  rcases st with ⟨s, c⟩
  cases s <;> simp [portManagerInstance, pmFix]

/-- Every injection performed by the loading loop injects the singleton
identity fixed by the initial state. -/
theorem loadModules_inject_fixed (env : Env) :
    ∀ (st : PMState) (ms : List String) (m : String) (a : Nat),
      Event.inject m a ∈ (loadModules env st ms).1 → a = pmFix st := by
  intro st ms
  induction ms generalizing st with
  | nil => intro m a h; simp [loadModules] at h
  | cons m0 rest ih =>
    intro m a h
    unfold loadModules at h
    by_cases hf : env.instanceFails m0
    · simp [hf] at h
    · simp [hf] at h
      rcases h with ⟨_, h2⟩ | h
      · rw [h2, (portManagerInstance_fix st).1]
      · have := ih (portManagerInstance st).2 m a h
        rw [this, (portManagerInstance_fix st).2]

/-- When the loading loop completes, every module of the list had its
singleton obtained and the fixed allocator identity injected, and the
injection order is exactly the module list. -/
theorem loadModules_complete (env : Env) :
    ∀ (st : PMState) (ms : List String),
      (loadModules env st ms).2.2 = true →
      (∀ m ∈ ms, Event.getInstance m ∈ (loadModules env st ms).1 ∧
        Event.inject m (pmFix st) ∈ (loadModules env st ms).1) ∧
      injectSeq (loadModules env st ms).1 = ms := by
  intro st ms
  induction ms generalizing st with
  | nil => intro _; simp [loadModules, injectSeq]
  | cons m0 rest ih =>
    intro hok
    unfold loadModules at hok ⊢
    by_cases hf : env.instanceFails m0
    · simp [hf] at hok
    · simp only [hf, if_false] at hok ⊢
      have hrest := ih (portManagerInstance st).2 hok
      constructor
      · intro m hm
        rcases List.mem_cons.mp hm with h0 | h1
        · subst h0
          constructor
          · simp
          · simp [(portManagerInstance_fix st).1]
        · have := hrest.1 m h1
          constructor
          · simp [this.1]
          · have h2 := this.2
            rw [(portManagerInstance_fix st).2] at h2
            simp [h2]
      · simp only [injectSeq, List.filterMap_append, List.filterMap_cons]
        simp only [injectSeq] at hrest
        simp [hrest.2, (portManagerInstance_fix st).1, List.filterMap_nil]

/-- The module-unloading loop emits only per-module unloading events. -/
theorem unloadModules_events (env : Env) :
    ∀ (ms : List String), ∀ e ∈ (unloadModules env ms).1, isUnloadEv e = true := by
  intro ms
  induction ms with
  | nil => intro e he; simp [unloadModules] at he
  | cons m rest ih =>
    intro e he
    unfold unloadModules at he
    by_cases hf : env.unloadFails m
    · simp [hf] at he
      rcases he with h | h | h <;> simp [h, isUnloadEv]
    · simp [hf] at he
      rcases he with h | h | h | h
      · simp [h, isUnloadEv]
      · simp [h, isUnloadEv]
      · simp [h, isUnloadEv]
      · exact ih _ h

/-- When the unloading loop completes, the unload order is exactly the
module list. -/
theorem unloadModules_complete (env : Env) :
    ∀ (ms : List String), (unloadModules env ms).2 = true →
      unloadSeq (unloadModules env ms).1 = ms := by
  intro ms
  induction ms with
  | nil => intro _; simp [unloadModules, unloadSeq]
  | cons m rest ih =>
    intro hok
    unfold unloadModules at hok ⊢
    by_cases hf : env.unloadFails m
    · simp [hf] at hok
    · simp only [hf, if_false] at hok ⊢
      simp only [unloadSeq, List.filterMap_append, List.filterMap_cons]
      have := ih hok
      simp only [unloadSeq] at this
      simp [this]

/-- Case analysis of a `start_app` run along the failure flags of its three
awaited steps. -/
theorem start_app_cases (app : App) (env : Env) (st : PMState) :
    (env.connectFails = true ∧
      start_app app env st = ⟨preSteps env ++ [Event.connectToDb], st, false⟩) ∨
    (env.connectFails = false ∧ env.getComputesFails = true ∧
      start_app app env st =
        ⟨preSteps env ++ [Event.connectToDb, Event.getComputes], st, false⟩) ∨
    (env.connectFails = false ∧ env.getComputesFails = false ∧
      env.controllerStartFails = true ∧
      start_app app env st =
        ⟨preSteps env ++ [Event.connectToDb, Event.getComputes,
          Event.controllerStart env.computes], st, false⟩) ∨
    (env.connectFails = false ∧ env.getComputesFails = false ∧
      env.controllerStartFails = false ∧
      start_app app env st =
        ⟨preSteps env ++ [Event.connectToDb, Event.getComputes,
            Event.controllerStart env.computes, Event.qemuInstance,
            Event.spawnListImages] ++ (loadModules env st env.modules).1,
          (loadModules env st env.modules).2.1,
          (loadModules env st env.modules).2.2⟩) := by
  by_cases h1 : env.connectFails
  · exact Or.inl ⟨h1, by simp [start_app, h1]⟩
  · by_cases h2 : env.getComputesFails
    · refine Or.inr (Or.inl ⟨by simp [h1], h2, ?_⟩)
      simp [start_app, h1, h2]
    · by_cases h3 : env.controllerStartFails
      · refine Or.inr (Or.inr (Or.inl ⟨by simp [h1], by simp [h2], h3, ?_⟩))
        simp [start_app, h1, h2, h3]
      · refine Or.inr (Or.inr (Or.inr ⟨by simp [h1], by simp [h2], by simp [h3], ?_⟩))
        simp [start_app, h1, h2, h3]

/-- A trace with no `Q`-event satisfies any `precedes _ Q` ordering. -/
theorem precedes_of_no_second (P Q : Event → Bool) (tr : List Event)
    (h : ∀ e ∈ tr, Q e = false) : precedes P Q tr := by
  intro i j _ hQ
  have hfalse : Q (tr.get j) = false := h _ (List.get_mem _ _ _)
  rw [hfalse] at hQ
  exact Bool.noConfusion hQ

/-- Classification of the preliminary startup events: none of them is an
awaited step, a spawn, or a module step. -/
theorem preSteps_classify {env : Env} {e : Event} (h : e ∈ preSteps env) :
    isConnect e = false ∧ isGetComputes e = false ∧ isCtrlStart e = false ∧
      isSpawn e = false ∧ isModuleStep e = false := by
  rcases mem_preSteps h with h0 | h0 | h0 <;> subst h0 <;>
    exact ⟨rfl, rfl, rfl, rfl, rfl⟩

/-- Classification of module-loading events: none of them is an awaited
step, a spawn, or a wake-up scheduling. -/
theorem load_classify {env : Env} {st : PMState} {ms : List String} {e : Event}
    (h : e ∈ (loadModules env st ms).1) :
    isConnect e = false ∧ isGetComputes e = false ∧ isCtrlStart e = false ∧
      isSpawn e = false ∧ isSchedWakeup e = false := by
  have := loadModules_events env st ms e h
  cases e <;> simp_all [isLoadEv, isConnect, isGetComputes, isCtrlStart,
    isSpawn, isSchedWakeup]

/-- Classification of module-unloading events: none of them is a warning,
a query, or an error log. -/
theorem unload_classify {env : Env} {ms : List String} {e : Event}
    (h : e ∈ (unloadModules env ms).1) :
    isWarn e = false ∧ (∀ s, e ≠ Event.logError s) := by
  have := unloadModules_events env ms e h
  cases e <;> simp_all [isUnloadEv, isWarn]

/-- Wake-up facts about the preliminary events: any scheduled wake-up uses
the 500 ms interval, and one is scheduled exactly on a platform whose name
starts with "win". -/
theorem wakeup_preSteps (env : Env) :
    (∀ n, Event.scheduleWakeup n ∈ preSteps env → n = 500) ∧
      ((Event.scheduleWakeup 500 ∈ preSteps env) ↔
        startsWithWin env.platform = true) := by
  by_cases hw : startsWithWin env.platform = true <;>
    by_cases hd : env.debugLog = true <;>
      constructor <;> simp_all [preSteps]

/-- Transport of an ordering statement along a trace equality. -/
theorem precedes_congr {P Q : Event → Bool} {tr1 tr2 : List Event}
    (h : tr1 = tr2) (hp : precedes P Q tr2) : precedes P Q tr1 := by
  rw [h]; exact hp

/-- C1: the startup steps execute in order — the persistence connection is
established before the descriptors are loaded, the descriptors are loaded
before `Controller.start` is invoked, and every module step (singleton
acquisition or allocator injection) occurs strictly after `Controller.start`
has returned; `Controller.start` always receives exactly the loaded
descriptors.  Sequencing is inherent in the trace semantics: each awaited
step's event is emitted only after the previous step completed without
raising. -/
theorem C1_startup_order (app : App) (env : Env) (st : PMState) :
    precedes isConnect isGetComputes (start_app app env st).trace ∧
    precedes isGetComputes isCtrlStart (start_app app env st).trace ∧
    precedes isCtrlStart isModuleStep (start_app app env st).trace ∧
    ∀ cs, Event.controllerStart cs ∈ (start_app app env st).trace →
      cs = env.computes := by
  rcases start_app_cases app env st with ⟨hc, heq⟩ | ⟨hc, hg, heq⟩ |
    ⟨hc, hg, hs, heq⟩ | ⟨hc, hg, hs, heq⟩ <;> simp only [heq]
  · refine ⟨?_, ?_, ?_, ?_⟩
    · refine precedes_of_no_second _ _ _ ?_
      intro e he
      rcases List.mem_append.mp he with h | h
      · exact (preSteps_classify h).2.1
      · simp at h; subst h; rfl
    · refine precedes_of_no_second _ _ _ ?_
      intro e he
      rcases List.mem_append.mp he with h | h
      · exact (preSteps_classify h).2.2.1
      · simp at h; subst h; rfl
    · refine precedes_of_no_second _ _ _ ?_
      intro e he
      rcases List.mem_append.mp he with h | h
      · exact (preSteps_classify h).2.2.2.2
      · simp at h; subst h; rfl
    · intro cs hmem
      rcases List.mem_append.mp hmem with h | h
      · have := (preSteps_classify h).2.2.1
        simp [isCtrlStart] at this
      · simp at h
  · refine ⟨?_, ?_, ?_, ?_⟩
    · refine precedes_congr
        (show preSteps env ++ [Event.connectToDb, Event.getComputes] =
          (preSteps env ++ [Event.connectToDb]) ++ [Event.getComputes] by simp)
        (precedes_of_split _ _ _ _ ?_ ?_)
      · intro e he
        rcases List.mem_append.mp he with h | h
        · exact (preSteps_classify h).2.1
        · simp at h; subst h; rfl
      · intro e he
        simp at he; subst he; rfl
    · refine precedes_of_no_second _ _ _ ?_
      intro e he
      rcases List.mem_append.mp he with h | h
      · exact (preSteps_classify h).2.2.1
      · simp at h; rcases h with h | h <;> subst h <;> rfl
    · refine precedes_of_no_second _ _ _ ?_
      intro e he
      rcases List.mem_append.mp he with h | h
      · exact (preSteps_classify h).2.2.2.2
      · simp at h; rcases h with h | h <;> subst h <;> rfl
    · intro cs hmem
      rcases List.mem_append.mp hmem with h | h
      · have := (preSteps_classify h).2.2.1
        simp [isCtrlStart] at this
      · simp at h
  · refine ⟨?_, ?_, ?_, ?_⟩
    · refine precedes_congr
        (show preSteps env ++ [Event.connectToDb, Event.getComputes,
            Event.controllerStart env.computes] =
          (preSteps env ++ [Event.connectToDb]) ++ [Event.getComputes,
            Event.controllerStart env.computes] by simp)
        (precedes_of_split _ _ _ _ ?_ ?_)
      · intro e he
        rcases List.mem_append.mp he with h | h
        · exact (preSteps_classify h).2.1
        · simp at h; subst h; rfl
      · intro e he
        simp at he; rcases he with h | h <;> subst h <;> rfl
    · refine precedes_congr
        (show preSteps env ++ [Event.connectToDb, Event.getComputes,
            Event.controllerStart env.computes] =
          (preSteps env ++ [Event.connectToDb, Event.getComputes]) ++
            [Event.controllerStart env.computes] by simp)
        (precedes_of_split _ _ _ _ ?_ ?_)
      · intro e he
        rcases List.mem_append.mp he with h | h
        · exact (preSteps_classify h).2.2.1
        · simp at h; rcases h with h | h <;> subst h <;> rfl
      · intro e he
        simp at he; subst he; rfl
    · refine precedes_of_no_second _ _ _ ?_
      intro e he
      rcases List.mem_append.mp he with h | h
      · exact (preSteps_classify h).2.2.2.2
      · simp at h; rcases h with h | h | h <;> subst h <;> rfl
    · intro cs hmem
      rcases List.mem_append.mp hmem with h | h
      · have := (preSteps_classify h).2.2.1
        simp [isCtrlStart] at this
      · simp at h
        exact h
  · refine ⟨?_, ?_, ?_, ?_⟩
    · refine precedes_congr
        (show preSteps env ++ [Event.connectToDb, Event.getComputes,
            Event.controllerStart env.computes, Event.qemuInstance,
            Event.spawnListImages] ++ (loadModules env st env.modules).1 =
          (preSteps env ++ [Event.connectToDb]) ++ ([Event.getComputes,
            Event.controllerStart env.computes, Event.qemuInstance,
            Event.spawnListImages] ++ (loadModules env st env.modules).1)
          by simp)
        (precedes_of_split _ _ _ _ ?_ ?_)
      · intro e he
        rcases List.mem_append.mp he with h | h
        · exact (preSteps_classify h).2.1
        · simp at h; subst h; rfl
      · intro e he
        rcases List.mem_append.mp he with h | h
        · simp at h; rcases h with h | h | h | h <;> subst h <;> rfl
        · exact (load_classify h).1
    · refine precedes_congr
        (show preSteps env ++ [Event.connectToDb, Event.getComputes,
            Event.controllerStart env.computes, Event.qemuInstance,
            Event.spawnListImages] ++ (loadModules env st env.modules).1 =
          (preSteps env ++ [Event.connectToDb, Event.getComputes]) ++
            ([Event.controllerStart env.computes, Event.qemuInstance,
              Event.spawnListImages] ++ (loadModules env st env.modules).1)
          by simp)
        (precedes_of_split _ _ _ _ ?_ ?_)
      · intro e he
        rcases List.mem_append.mp he with h | h
        · exact (preSteps_classify h).2.2.1
        · simp at h; rcases h with h | h <;> subst h <;> rfl
      · intro e he
        rcases List.mem_append.mp he with h | h
        · simp at h; rcases h with h | h | h <;> subst h <;> rfl
        · exact (load_classify h).2.1
    · refine precedes_congr
        (show preSteps env ++ [Event.connectToDb, Event.getComputes,
            Event.controllerStart env.computes, Event.qemuInstance,
            Event.spawnListImages] ++ (loadModules env st env.modules).1 =
          (preSteps env ++ [Event.connectToDb, Event.getComputes,
            Event.controllerStart env.computes, Event.qemuInstance,
            Event.spawnListImages]) ++ (loadModules env st env.modules).1
          by simp)
        (precedes_of_split _ _ _ _ ?_ ?_)
      · intro e he
        rcases List.mem_append.mp he with h | h
        · exact (preSteps_classify h).2.2.2.2
        · simp at h; rcases h with h | h | h | h | h <;> subst h <;> rfl
      · intro e he
        exact (load_classify he).2.2.1
    · intro cs hmem
      rcases List.mem_append.mp hmem with h | h
      · rcases List.mem_append.mp h with h1 | h1
        · have := (preSteps_classify h1).2.2.1
          simp [isCtrlStart] at this
        · simp at h1
          exact h1
      · have := (load_classify h).2.2.1
        simp [isCtrlStart] at this

/-- The module-loading loop reads only the `instanceFails` outcomes of the
environment. -/
theorem loadModules_ext {env1 env2 : Env}
    (h : env1.instanceFails = env2.instanceFails) :
    ∀ (st : PMState) (ms : List String),
      loadModules env1 st ms = loadModules env2 st ms := by
  intro st ms
  induction ms generalizing st with
  | nil => rfl
  | cons m rest ih => simp only [loadModules, h, ih]

/-- The startup run is unchanged by the eventual outcome of the
fire-and-forget `list_images` task: the handler schedules it and never
awaits it. -/
theorem start_app_ignores_listImages (app : App) (env : Env) (st : PMState)
    (b : Bool) :
    start_app app {env with listImagesFails := b} st = start_app app env st := by
  have h := loadModules_ext
    (show ({env with listImagesFails := b}).instanceFails = env.instanceFails
      from rfl)
  simp only [start_app, preSteps, h]

/-- A failing singleton acquisition of any listed module makes the loading
loop report failure. -/
theorem loadModules_fail (env : Env) :
    ∀ (st : PMState) (ms : List String) (m : String), m ∈ ms →
      env.instanceFails m = true → (loadModules env st ms).2.2 = false := by
  intro st ms
  induction ms generalizing st with
  | nil => intro m h; simp at h
  | cons m0 rest ih =>
    intro m hm hf
    unfold loadModules
    by_cases h0 : env.instanceFails m0
    · simp [h0]
    · rcases List.mem_cons.mp hm with h1 | h1
      · subst h1; exact absurd hf (by simp [h0])
      · simp only [h0, if_false]
        exact ih _ m h1 hf

/-- When no listed module's unload raises, the unloading loop completes. -/
theorem unloadModules_ok (env : Env) :
    ∀ ms : List String, (∀ m ∈ ms, env.unloadFails m = false) →
      (unloadModules env ms).2 = true := by
  intro ms
  induction ms with
  | nil => intro _; rfl
  | cons m rest ih =>
    intro h
    have hm := h m (by simp)
    simp only [unloadModules, hm, if_false]
    exact ih fun m2 h2 => h m2 (by simp [h2])

/-- The shutdown run completes exactly when the session close, the
controller stop, and every unload succeed. -/
theorem shutdown_ok_iff (env : Env) :
    (shutdown_handler env).ok = true ↔
      env.closeSessionFails = false ∧ env.controllerStopFails = false ∧
        (unloadModules env env.modules).2 = true := by
  by_cases a : env.closeSessionFails <;>
    by_cases b : env.controllerStopFails <;>
      by_cases c : (unloadModules env env.modules).2 = true <;>
        simp [shutdown_handler, a, b, c]

/-- Shape of a fully successful shutdown run. -/
theorem shutdown_shape (env : Env) (h1 : env.closeSessionFails = false)
    (h2 : env.controllerStopFails = false)
    (h3 : (unloadModules env env.modules).2 = true) :
    shutdown_handler env =
      ⟨(Event.closeSession :: Event.controllerStop ::
          (unloadModules env env.modules).1) ++
        ((Event.queryPorts .tcp ::
          (if env.tcpPorts.isEmpty then []
            else [Event.warnPorts .tcp env.tcpPorts])) ++
         (Event.queryPorts .udp ::
          (if env.udpPorts.isEmpty then []
            else [Event.warnPorts .udp env.udpPorts]))), true⟩ := by
  simp [shutdown_handler, h1, h2, h3]

/-- No module is injected during the preliminary startup statements. -/
theorem injectSeq_preSteps (env : Env) : injectSeq (preSteps env) = [] := by
  by_cases hw : startsWithWin env.platform = true <;>
    by_cases hd : env.debugLog = true <;> simp [preSteps, injectSeq, hw, hd]

/-- C2, counterexample: when closing the transport session pool raises, the
run stops at once — the module's unload hook is never invoked and no
leaked-port warning is emitted even though a TCP port is still held. -/
theorem C2_counterexample :
    envC2.closeSessionFails = true ∧ "dynamips" ∈ envC2.modules ∧
    envC2.tcpPorts = [2000] ∧
    (shutdown_handler envC2).trace = [Event.closeSession] ∧
    Event.unload "dynamips" ∉ (shutdown_handler envC2).trace ∧
    Event.warnPorts .tcp [2000] ∉ (shutdown_handler envC2).trace := by
  decide

/-- When the unloads of a first group of modules succeed and the next
module's unload raises, the unloading loop stops exactly there: its trace is
the clean unloads of the first group followed by the attempted unload of the
failing module, and it reports failure. -/
theorem unloadModules_fail_split (env : Env) :
    ∀ (ms1 ms2 : List String) (m : String),
      (∀ x ∈ ms1, env.unloadFails x = false) → env.unloadFails m = true →
      (unloadModules env (ms1 ++ m :: ms2)).1 =
        (unloadModules env ms1).1 ++
          [Event.logDebug ("Unloading module " ++ m), Event.getInstance m,
            Event.unload m] ∧
      (unloadModules env (ms1 ++ m :: ms2)).2 = false := by
  intro ms1 ms2 m
  induction ms1 with
  | nil =>
    intro _ hf
    constructor <;> simp [unloadModules, hf]
  | cons x ms1 ih =>
    intro hpre hf
    have hx : env.unloadFails x = false := hpre x (by simp)
    have ihx := ih (fun y hy => hpre y (by simp [hy])) hf
    constructor
    · simp only [List.cons_append, unloadModules, hx, Bool.false_eq_true,
        if_false]
      simp [ihx.1]
    · simp only [List.cons_append, unloadModules, hx, Bool.false_eq_true,
        if_false]
      exact ihx.2

/-- Every module the unloading loop ever unloads is in its module list. -/
theorem unloadModules_unload_mem (env : Env) :
    ∀ (ms : List String) (x : String),
      Event.unload x ∈ (unloadModules env ms).1 → x ∈ ms := by
  intro ms
  induction ms with
  | nil => intro x h; simp [unloadModules] at h
  | cons m rest ih =>
    intro x h
    unfold unloadModules at h
    by_cases hf : env.unloadFails m
    · simp [hf] at h
      simp [h]
    · simp [hf] at h
      rcases h with h | h
      · simp [h]
      · exact List.mem_cons_of_mem _ (ih x h)

/-- When the singleton acquisitions of a first group of modules succeed and
the next module's acquisition raises, the loading loop stops exactly there:
its trace is the clean loads of the first group followed by the attempted
acquisition of the failing module, and it reports failure. -/
theorem loadModules_fail_split (env : Env) :
    ∀ (ms1 ms2 : List String) (m : String) (st : PMState),
      (∀ x ∈ ms1, env.instanceFails x = false) → env.instanceFails m = true →
      (loadModules env st (ms1 ++ m :: ms2)).1 =
        (loadModules env st ms1).1 ++
          [Event.logDebug ("Loading module " ++ m), Event.getInstance m] ∧
      (loadModules env st (ms1 ++ m :: ms2)).2.2 = false := by
  intro ms1 ms2 m
  induction ms1 with
  | nil =>
    intro st _ hf
    constructor <;> simp [loadModules, hf]
  | cons x ms1 ih =>
    intro st hpre hf
    have hx : env.instanceFails x = false := hpre x (by simp)
    have ihx := ih (portManagerInstance st).2
      (fun y hy => hpre y (by simp [hy])) hf
    constructor
    · simp only [List.cons_append, loadModules, hx, Bool.false_eq_true,
        if_false]
      simp [ihx.1]
    · simp only [List.cons_append, loadModules, hx, Bool.false_eq_true,
        if_false]
      exact ihx.2

/-- Every module whose singleton the loading loop ever obtains is in its
module list. -/
theorem loadModules_getInstance_mem (env : Env) :
    ∀ (st : PMState) (ms : List String) (x : String),
      Event.getInstance x ∈ (loadModules env st ms).1 → x ∈ ms := by
  intro st ms
  induction ms generalizing st with
  | nil => intro x h; simp [loadModules] at h
  | cons m rest ih =>
    intro x h
    unfold loadModules at h
    by_cases hf : env.instanceFails m
    · simp [hf] at h
      simp [h]
    · simp [hf] at h
      rcases h with h | h
      · simp [h]
      · exact List.mem_cons_of_mem _ (ih _ x h)

/-- C2, amended: the shutdown steps are not independent — an exception in
any step propagates immediately and skips every later step: a failing
session close skips `Controller.stop`, all unloads and the leak warnings; a
failing `Controller.stop` skips the unloads and warnings; and whichever
module's unload fails first, at any position of the module list, the run
stops right there — the remaining modules are not unloaded and neither the
port queries nor the warnings happen. -/
theorem C2_shutdown_dependent (env : Env) :
    (env.closeSessionFails = true →
      (shutdown_handler env).trace = [Event.closeSession] ∧
        (shutdown_handler env).ok = false) ∧
    (env.closeSessionFails = false → env.controllerStopFails = true →
      (shutdown_handler env).trace = [Event.closeSession, Event.controllerStop] ∧
        (shutdown_handler env).ok = false) ∧
    (∀ ms1 m ms2, env.closeSessionFails = false →
      env.controllerStopFails = false → env.modules = ms1 ++ m :: ms2 →
      (∀ x ∈ ms1, env.unloadFails x = false) → env.unloadFails m = true →
      (shutdown_handler env).trace = Event.closeSession :: Event.controllerStop ::
        ((unloadModules env ms1).1 ++
          [Event.logDebug ("Unloading module " ++ m), Event.getInstance m,
            Event.unload m]) ∧
      (shutdown_handler env).ok = false ∧
      (∀ p ports, Event.warnPorts p ports ∉ (shutdown_handler env).trace) ∧
      (∀ p, Event.queryPorts p ∉ (shutdown_handler env).trace) ∧
      (∀ m2 ∈ ms2, m2 ∉ ms1 → m2 ≠ m →
        Event.unload m2 ∉ (shutdown_handler env).trace)) := by
  refine ⟨?_, ?_, ?_⟩
  · intro h
    constructor <;> simp [shutdown_handler, h]
  · intro h1 h2
    constructor <;> simp [shutdown_handler, h1, h2]
  · intro ms1 m ms2 h1 h2 hm hok hf
    have hsplit := unloadModules_fail_split env ms1 ms2 m hok hf
    have hres : shutdown_handler env =
        ⟨Event.closeSession :: Event.controllerStop ::
          ((unloadModules env ms1).1 ++
            [Event.logDebug ("Unloading module " ++ m), Event.getInstance m,
              Event.unload m]), false⟩ := by
      simp [shutdown_handler, h1, h2, hm, hsplit.1, hsplit.2]
    refine ⟨by rw [hres], by rw [hres], ?_, ?_, ?_⟩
    · intro p ports hmem
      rw [hres] at hmem
      rcases List.mem_cons.mp hmem with h4 | h4
      · exact absurd h4 (by simp)
      · rcases List.mem_cons.mp h4 with h5 | h5
        · exact absurd h5 (by simp)
        · rcases List.mem_append.mp h5 with h6 | h6
          · have := unloadModules_events env ms1 _ h6
            simp [isUnloadEv] at this
          · simp at h6
    · intro p hmem
      rw [hres] at hmem
      rcases List.mem_cons.mp hmem with h4 | h4
      · exact absurd h4 (by simp)
      · rcases List.mem_cons.mp h4 with h5 | h5
        · exact absurd h5 (by simp)
        · rcases List.mem_append.mp h5 with h6 | h6
          · have := unloadModules_events env ms1 _ h6
            simp [isUnloadEv] at this
          · simp at h6
    · intro m2 hm2 hnotin hne hmem
      rw [hres] at hmem
      rcases List.mem_cons.mp hmem with h4 | h4
      · exact absurd h4 (by simp)
      · rcases List.mem_cons.mp h4 with h5 | h5
        · exact absurd h5 (by simp)
        · rcases List.mem_append.mp h5 with h6 | h6
          · exact hnotin (unloadModules_unload_mem env ms1 m2 h6)
          · simp at h6
            exact hne h6

/-- C2, witness: the amended statement applied to three concrete runs, one
for each failing step. -/
theorem C2_shutdown_dependent_witness :
    (envC2.closeSessionFails = true ∧ (shutdown_handler envC2).ok = false) ∧
    (envStop.closeSessionFails = false ∧ envStop.controllerStopFails = true ∧
      (shutdown_handler envStop).ok = false) ∧
    (envUnloadFail2.modules = ["dynamips"] ++ "qemu" :: [] ∧
      (∀ x ∈ ["dynamips"], envUnloadFail2.unloadFails x = false) ∧
      envUnloadFail2.unloadFails "qemu" = true ∧
      (shutdown_handler envUnloadFail2).trace = [Event.closeSession,
        Event.controllerStop, Event.logDebug "Unloading module dynamips",
        Event.getInstance "dynamips", Event.unload "dynamips",
        Event.logDebug "Unloading module qemu", Event.getInstance "qemu",
        Event.unload "qemu"] ∧
      (shutdown_handler envUnloadFail2).ok = false) :=
  ⟨⟨by decide, ((C2_shutdown_dependent envC2).1 (by decide)).2⟩,
    ⟨by decide, by decide,
      ((C2_shutdown_dependent envStop).2.1 (by decide) (by decide)).2⟩,
    ⟨by decide, by decide, by decide,
      (((C2_shutdown_dependent envUnloadFail2).2.2 ["dynamips"] "qemu" []
        (by decide) (by decide) (by decide) (by decide) (by decide)).1).trans
        (by decide),
      ((C2_shutdown_dependent envUnloadFail2).2.2 ["dynamips"] "qemu" []
        (by decide) (by decide) (by decide) (by decide) (by decide)).2.1⟩⟩

/-- C3, counterexample: with two modules loaded in the order
`["dynamips", "qemu"]`, the shutdown handler unloads them in that same
order, not in the reversed order the claim requires. -/
theorem C3_counterexample :
    baseEnv.modules = ["dynamips", "qemu"] ∧
    injectSeq (start_app app0 baseEnv st0).trace = ["dynamips", "qemu"] ∧
    unloadSeq (shutdown_handler baseEnv).trace = ["dynamips", "qemu"] ∧
    unloadSeq (shutdown_handler baseEnv).trace ≠
      (injectSeq (start_app app0 baseEnv st0).trace).reverse := by
  decide

/-- C3, amended: both loops iterate `MODULES` in the same order — a
completed startup injects the allocator in module-list order and a completed
shutdown unloads in that same module-list order, not in reverse. -/
theorem C3_same_order (app : App) (env : Env) (st : PMState)
    (h1 : (start_app app env st).ok = true)
    (h2 : (shutdown_handler env).ok = true) :
    injectSeq (start_app app env st).trace = env.modules ∧
    unloadSeq (shutdown_handler env).trace = env.modules := by
  constructor
  · rcases start_app_cases app env st with ⟨hc, heq⟩ | ⟨hc, hg, heq⟩ |
      ⟨hc, hg, hs, heq⟩ | ⟨hc, hg, hs, heq⟩ <;> rw [heq] at h1 ⊢
    · exact absurd h1 (by simp)
    · exact absurd h1 (by simp)
    · exact absurd h1 (by simp)
    · have hok : (loadModules env st env.modules).2.2 = true := h1
      have hcomp := (loadModules_complete env st env.modules hok).2
      show injectSeq (preSteps env ++ _ ++ (loadModules env st env.modules).1) =
        env.modules
      simp only [injectSeq, List.filterMap_append] at hcomp ⊢
      rw [show (preSteps env).filterMap _ = [] from injectSeq_preSteps env]
      simp only [List.filterMap_cons, List.filterMap_nil]
      simpa using hcomp
  · have h3 := (shutdown_ok_iff env).mp h2
    rw [shutdown_shape env h3.1 h3.2.1 h3.2.2]
    have hcomp := unloadModules_complete env env.modules h3.2.2
    show unloadSeq ((Event.closeSession :: Event.controllerStop ::
      (unloadModules env env.modules).1) ++ _) = env.modules
    simp only [unloadSeq, List.filterMap_append, List.filterMap_cons] at hcomp ⊢
    by_cases ht : env.tcpPorts.isEmpty <;> by_cases hu : env.udpPorts.isEmpty <;>
      simp [ht, hu, hcomp]

/-- C3, witness: the amended statement applied to the base run. -/
theorem C3_same_order_witness :
    (start_app app0 baseEnv st0).ok = true ∧
    (shutdown_handler baseEnv).ok = true ∧
    injectSeq (start_app app0 baseEnv st0).trace = baseEnv.modules ∧
    unloadSeq (shutdown_handler baseEnv).trace = baseEnv.modules :=
  ⟨by decide, by decide,
    (C3_same_order app0 baseEnv st0 (by decide) (by decide)).1,
    (C3_same_order app0 baseEnv st0 (by decide) (by decide)).2⟩

/-- C4, counterexample: a fully successful startup run obtains the module
singleton and injects the allocator, but never invokes any start hook on a
module — no start-hook invocation appears anywhere in the trace. -/
theorem C4_counterexample :
    "dynamips" ∈ baseEnv.modules ∧
    (start_app app0 baseEnv st0).ok = true ∧
    Event.getInstance "dynamips" ∈ (start_app app0 baseEnv st0).trace ∧
    Event.inject "dynamips" 0 ∈ (start_app app0 baseEnv st0).trace ∧
    Event.startHook "dynamips" ∉ (start_app app0 baseEnv st0).trace := by
  decide

/-- C4, amended: in a completed startup run every known module has its
singleton obtained and the allocator injected, the injected allocator is the
same single shared instance for every module, and no start hook is ever
invoked on any module. -/
theorem C4_load_amended (app : App) (env : Env) (st : PMState)
    (h : (start_app app env st).ok = true) :
    (∀ m ∈ env.modules, Event.getInstance m ∈ (start_app app env st).trace ∧
      Event.inject m (pmFix st) ∈ (start_app app env st).trace) ∧
    (∀ m a m2 a2, Event.inject m a ∈ (start_app app env st).trace →
      Event.inject m2 a2 ∈ (start_app app env st).trace → a = a2) ∧
    (∀ m, Event.startHook m ∉ (start_app app env st).trace) := by
  rcases start_app_cases app env st with ⟨hc, heq⟩ | ⟨hc, hg, heq⟩ |
    ⟨hc, hg, hs, heq⟩ | ⟨hc, hg, hs, heq⟩ <;> rw [heq] at h ⊢
  · exact absurd h (by simp)
  · exact absurd h (by simp)
  · exact absurd h (by simp)
  · have hok : (loadModules env st env.modules).2.2 = true := h
    have hcomp := (loadModules_complete env st env.modules hok).1
    have hinj : ∀ m a, Event.inject m a ∈
        (StartResult.mk (preSteps env ++ [Event.connectToDb, Event.getComputes,
          Event.controllerStart env.computes, Event.qemuInstance,
          Event.spawnListImages] ++ (loadModules env st env.modules).1)
          (loadModules env st env.modules).2.1
          (loadModules env st env.modules).2.2).trace →
        Event.inject m a ∈ (loadModules env st env.modules).1 := by
      intro m a hmem
      rcases List.mem_append.mp hmem with h1 | h1
      · rcases List.mem_append.mp h1 with h2 | h2
        · rcases mem_preSteps h2 with h3 | h3 | h3 <;> simp at h3
        · simp at h2
      · exact h1
    refine ⟨?_, ?_, ?_⟩
    · intro m hm
      have := hcomp m hm
      constructor
      · exact List.mem_append_right _ this.1
      · exact List.mem_append_right _ this.2
    · intro m a m2 a2 ha ha2
      have e1 := loadModules_inject_fixed env st env.modules m a (hinj m a ha)
      have e2 := loadModules_inject_fixed env st env.modules m2 a2
        (hinj m2 a2 ha2)
      rw [e1, e2]
    · intro m hmem
      rcases List.mem_append.mp hmem with h1 | h1
      · rcases List.mem_append.mp h1 with h2 | h2
        · rcases mem_preSteps h2 with h3 | h3 | h3 <;> simp at h3
        · simp at h2
      · have := loadModules_events env st env.modules _ h1
        simp [isLoadEv] at this

/-- C4, witness: the amended statement applied to the base run. -/
theorem C4_load_amended_witness :
    (start_app app0 baseEnv st0).ok = true ∧
    (∀ m ∈ baseEnv.modules,
      Event.getInstance m ∈ (start_app app0 baseEnv st0).trace ∧
      Event.inject m (pmFix st0) ∈ (start_app app0 baseEnv st0).trace) :=
  ⟨by decide, (C4_load_amended app0 baseEnv st0 (by decide)).1⟩

/-- C5, counterexample: when the first module's singleton acquisition
raises, the second module is never processed and the startup handler fails
instead of completing. -/
theorem C5_counterexample :
    envC5.modules = ["dynamips", "qemu"] ∧
    envC5.instanceFails "dynamips" = true ∧
    (start_app app0 envC5 st0).ok = false ∧
    Event.getInstance "qemu" ∉ (start_app app0 envC5 st0).trace ∧
    (∀ a, Event.inject "qemu" a ∉ (start_app app0 envC5 st0).trace ∧
      Event.inject "dynamips" a ∉ (start_app app0 envC5 st0).trace) := by
  have htr : (start_app app0 envC5 st0).trace = [Event.setAsyncioLogLevelError,
      Event.connectToDb, Event.getComputes, Event.controllerStart [7],
      Event.qemuInstance, Event.spawnListImages,
      Event.logDebug "Loading module dynamips",
      Event.getInstance "dynamips"] := by decide
  refine ⟨by decide, by decide, by decide, by decide, ?_⟩
  intro a
  constructor <;> simp [htr]

/-- C5, amended: a failure to obtain one module's singleton — at any
position of the module list — propagates out of the startup handler: the
run fails, its trace stops right at the attempted acquisition of that
module, no later module is processed, and nothing is logged about the
failure. -/
theorem C5_module_failure_amended (app : App) (env : Env) (st : PMState)
    (ms1 : List String) (m : String) (ms2 : List String)
    (hm : env.modules = ms1 ++ m :: ms2)
    (hpre : ∀ x ∈ ms1, env.instanceFails x = false)
    (hf : env.instanceFails m = true)
    (h1 : env.connectFails = false) (h2 : env.getComputesFails = false)
    (h3 : env.controllerStartFails = false) :
    (start_app app env st).ok = false ∧
    (start_app app env st).trace = preSteps env ++ [Event.connectToDb,
      Event.getComputes, Event.controllerStart env.computes,
      Event.qemuInstance, Event.spawnListImages] ++
      ((loadModules env st ms1).1 ++
        [Event.logDebug ("Loading module " ++ m), Event.getInstance m]) ∧
    ∀ m2 ∈ ms2, m2 ∉ ms1 → m2 ≠ m →
      Event.getInstance m2 ∉ (start_app app env st).trace := by
  have hsplit := loadModules_fail_split env ms1 ms2 m st hpre hf
  rcases start_app_cases app env st with ⟨hc, heq⟩ | ⟨hc, hg, heq⟩ |
    ⟨hc, hg, hs, heq⟩ | ⟨hc, hg, hs, heq⟩
  · rw [h1] at hc; exact Bool.noConfusion hc
  · rw [h2] at hg; exact Bool.noConfusion hg
  · rw [h3] at hs; exact Bool.noConfusion hs
  · have htr : (start_app app env st).trace = preSteps env ++
        [Event.connectToDb, Event.getComputes,
          Event.controllerStart env.computes, Event.qemuInstance,
          Event.spawnListImages] ++
        ((loadModules env st ms1).1 ++
          [Event.logDebug ("Loading module " ++ m), Event.getInstance m]) := by
      rw [heq]
      show preSteps env ++ [Event.connectToDb, Event.getComputes,
        Event.controllerStart env.computes, Event.qemuInstance,
        Event.spawnListImages] ++ (loadModules env st env.modules).1 = _
      rw [hm, hsplit.1]
    have hok : (start_app app env st).ok = false := by
      rw [heq]
      show (loadModules env st env.modules).2.2 = false
      rw [hm]
      exact hsplit.2
    refine ⟨hok, htr, ?_⟩
    intro m2 hm2 hnotin hne hmem
    rw [htr] at hmem
    rcases List.mem_append.mp hmem with h4 | h4
    · rcases List.mem_append.mp h4 with h5 | h5
      · rcases mem_preSteps h5 with h6 | h6 | h6 <;> simp at h6
      · simp at h5
    · rcases List.mem_append.mp h4 with h5 | h5
      · exact hnotin (loadModules_getInstance_mem env st ms1 m2 h5)
      · simp at h5
        exact hne h5

/-- C5, witness: the amended statement applied to a run whose second module
(not the first) fails to provide its singleton: the first module is loaded,
the run then stops at the second and fails. -/
theorem C5_module_failure_amended_witness :
    (envC5b.modules = ["dynamips"] ++ "qemu" :: [] ∧
      (∀ x ∈ ["dynamips"], envC5b.instanceFails x = false) ∧
      envC5b.instanceFails "qemu" = true ∧
      envC5b.connectFails = false ∧ envC5b.getComputesFails = false ∧
      envC5b.controllerStartFails = false) ∧
    (start_app app0 envC5b st0).ok = false ∧
    (start_app app0 envC5b st0).trace = [Event.setAsyncioLogLevelError,
      Event.connectToDb, Event.getComputes, Event.controllerStart [7],
      Event.qemuInstance, Event.spawnListImages,
      Event.logDebug "Loading module dynamips", Event.getInstance "dynamips",
      Event.pmInstance 0, Event.inject "dynamips" 0,
      Event.logDebug "Loading module qemu", Event.getInstance "qemu"] :=
  ⟨⟨by decide, by decide, by decide, by decide, by decide, by decide⟩,
    (C5_module_failure_amended app0 envC5b st0 ["dynamips"] "qemu" []
      (by decide) (by decide) (by decide) (by decide) (by decide)
      (by decide)).1,
    ((C5_module_failure_amended app0 envC5b st0 ["dynamips"] "qemu" []
      (by decide) (by decide) (by decide) (by decide) (by decide)
      (by decide)).2.1).trans (by decide)⟩

/-- C6: at the end of a shutdown run whose earlier steps do not raise, the
handler queries the held ports of both protocols; the warnings it emits are
exactly one per protocol with a non-empty held set (none for an empty set),
it never emits an error log, every warning comes after every unload, and a
non-empty held set never makes the run fail. -/
theorem C6_leak_warnings (env : Env)
    (h1 : env.closeSessionFails = false) (h2 : env.controllerStopFails = false)
    (h3 : ∀ m ∈ env.modules, env.unloadFails m = false) :
    (shutdown_handler env).ok = true ∧
    (shutdown_handler env).trace.filter isWarn =
      (if env.tcpPorts.isEmpty then [] else [Event.warnPorts .tcp env.tcpPorts]) ++
      (if env.udpPorts.isEmpty then [] else [Event.warnPorts .udp env.udpPorts]) ∧
    (∀ s, Event.logError s ∉ (shutdown_handler env).trace) ∧
    precedes isUnload isWarn (shutdown_handler env).trace ∧
    Event.queryPorts .tcp ∈ (shutdown_handler env).trace ∧
    Event.queryPorts .udp ∈ (shutdown_handler env).trace := by
  have hok := unloadModules_ok env env.modules h3
  have hshape := shutdown_shape env h1 h2 hok
  have htr : (shutdown_handler env).trace =
      (Event.closeSession :: Event.controllerStop ::
        (unloadModules env env.modules).1) ++
      ((Event.queryPorts .tcp ::
        (if env.tcpPorts.isEmpty then []
          else [Event.warnPorts .tcp env.tcpPorts])) ++
       (Event.queryPorts .udp ::
        (if env.udpPorts.isEmpty then []
          else [Event.warnPorts .udp env.udpPorts]))) := by
    rw [hshape]
  have hUfilter : (unloadModules env env.modules).1.filter isWarn = [] := by
    rw [List.filter_eq_nil]
    intro e he
    simp [(unload_classify he).1]
  refine ⟨by rw [hshape], ?_, ?_, ?_, ?_, ?_⟩
  · rw [htr]
    by_cases ht : env.tcpPorts.isEmpty <;> by_cases hu : env.udpPorts.isEmpty <;>
      simp [ht, hu, List.filter_append, hUfilter, isWarn]
  · intro s hmem
    rw [htr] at hmem
    rcases List.mem_append.mp hmem with h4 | h4
    · rcases List.mem_cons.mp h4 with h5 | h5
      · simp at h5
      · rcases List.mem_cons.mp h5 with h6 | h6
        · simp at h6
        · exact (unload_classify h6).2 s rfl
    · rcases List.mem_append.mp h4 with h5 | h5 <;>
        rcases List.mem_cons.mp h5 with h6 | h6 <;>
          first
            | simp at h6
            | (split at h6 <;> simp at h6)
  · refine precedes_congr htr (precedes_of_split _ _ _ _ ?_ ?_)
    · intro e he
      rcases List.mem_cons.mp he with h4 | h4
      · subst h4; rfl
      · rcases List.mem_cons.mp h4 with h5 | h5
        · subst h5; rfl
        · exact (unload_classify h5).1
    · intro e he
      rcases List.mem_append.mp he with h4 | h4 <;>
        rcases List.mem_cons.mp h4 with h5 | h5 <;>
          first
            | (subst h5; rfl)
            | (split at h5 <;> simp at h5 <;> subst h5 <;> rfl)
  · rw [htr]; simp
  · rw [htr]; simp

/-- C6, witness: the statement applied to a clean shutdown holding one TCP
port: the run succeeds and emits exactly the one TCP warning. -/
theorem C6_leak_warnings_witness :
    (envC6.closeSessionFails = false ∧ envC6.controllerStopFails = false ∧
      (∀ m ∈ envC6.modules, envC6.unloadFails m = false)) ∧
    (shutdown_handler envC6).ok = true ∧
    (shutdown_handler envC6).trace.filter isWarn =
      [Event.warnPorts .tcp [3080]] :=
  ⟨⟨by decide, by decide, by decide⟩,
    (C6_leak_warnings envC6 (by decide) (by decide) (by decide)).1,
    ((C6_leak_warnings envC6 (by decide) (by decide) (by decide)).2.1).trans
      (by decide)⟩

/-- C7: the image-listing background task is scheduled after
`Controller.start` and before every module step, it is never awaited — the
whole run result is independent of the task's eventual outcome — and it is
scheduled whenever the three awaited steps succeed. -/
theorem C7_background_task (app : App) (env : Env) (st : PMState) :
    (∀ b, start_app app {env with listImagesFails := b} st =
      start_app app env st) ∧
    precedes isCtrlStart isSpawn (start_app app env st).trace ∧
    precedes isSpawn isModuleStep (start_app app env st).trace ∧
    (env.connectFails = false → env.getComputesFails = false →
      env.controllerStartFails = false →
      Event.spawnListImages ∈ (start_app app env st).trace) := by
  refine ⟨fun b => start_app_ignores_listImages app env st b, ?_, ?_, ?_⟩ <;>
    rcases start_app_cases app env st with ⟨hc, heq⟩ | ⟨hc, hg, heq⟩ |
      ⟨hc, hg, hs, heq⟩ | ⟨hc, hg, hs, heq⟩ <;> simp only [heq]
  · refine precedes_of_no_second _ _ _ ?_
    intro e he
    rcases List.mem_append.mp he with h | h
    · exact (preSteps_classify h).2.2.2.1
    · simp at h; subst h; rfl
  · refine precedes_of_no_second _ _ _ ?_
    intro e he
    rcases List.mem_append.mp he with h | h
    · exact (preSteps_classify h).2.2.2.1
    · simp at h; rcases h with h | h <;> subst h <;> rfl
  · refine precedes_of_no_second _ _ _ ?_
    intro e he
    rcases List.mem_append.mp he with h | h
    · exact (preSteps_classify h).2.2.2.1
    · simp at h; rcases h with h | h | h <;> subst h <;> rfl
  · refine precedes_congr
      (show preSteps env ++ [Event.connectToDb, Event.getComputes,
          Event.controllerStart env.computes, Event.qemuInstance,
          Event.spawnListImages] ++ (loadModules env st env.modules).1 =
        (preSteps env ++ [Event.connectToDb, Event.getComputes,
          Event.controllerStart env.computes]) ++ ([Event.qemuInstance,
          Event.spawnListImages] ++ (loadModules env st env.modules).1)
        by simp)
      (precedes_of_split _ _ _ _ ?_ ?_)
    · intro e he
      rcases List.mem_append.mp he with h | h
      · exact (preSteps_classify h).2.2.2.1
      · simp at h; rcases h with h | h | h <;> subst h <;> rfl
    · intro e he
      rcases List.mem_append.mp he with h | h
      · simp at h; rcases h with h | h <;> subst h <;> rfl
      · exact (load_classify h).2.2.1
  · refine precedes_of_no_second _ _ _ ?_
    intro e he
    rcases List.mem_append.mp he with h | h
    · exact (preSteps_classify h).2.2.2.2
    · simp at h; subst h; rfl
  · refine precedes_of_no_second _ _ _ ?_
    intro e he
    rcases List.mem_append.mp he with h | h
    · exact (preSteps_classify h).2.2.2.2
    · simp at h; rcases h with h | h <;> subst h <;> rfl
  · refine precedes_of_no_second _ _ _ ?_
    intro e he
    rcases List.mem_append.mp he with h | h
    · exact (preSteps_classify h).2.2.2.2
    · simp at h; rcases h with h | h | h <;> subst h <;> rfl
  · refine precedes_congr
      (show preSteps env ++ [Event.connectToDb, Event.getComputes,
          Event.controllerStart env.computes, Event.qemuInstance,
          Event.spawnListImages] ++ (loadModules env st env.modules).1 =
        (preSteps env ++ [Event.connectToDb, Event.getComputes,
          Event.controllerStart env.computes, Event.qemuInstance,
          Event.spawnListImages]) ++ (loadModules env st env.modules).1
        by simp)
      (precedes_of_split _ _ _ _ ?_ ?_)
    · intro e he
      rcases List.mem_append.mp he with h | h
      · exact (preSteps_classify h).2.2.2.2
      · simp at h; rcases h with h | h | h | h | h <;> subst h <;> rfl
    · intro e he
      exact (load_classify he).2.2.2.1
  · intro h1
    rw [h1] at hc
    exact Bool.noConfusion hc
  · intro _ h2
    rw [h2] at hg
    exact Bool.noConfusion hg
  · intro _ _ h3
    rw [h3] at hs
    exact Bool.noConfusion hs
  · intro _ _ _
    simp

/-- C7, witness: the statement applied to the base run. -/
theorem C7_background_task_witness :
    (start_app app0 { baseEnv with listImagesFails := true } st0 =
      start_app app0 baseEnv st0) ∧
    (baseEnv.connectFails = false ∧ baseEnv.getComputesFails = false ∧
      baseEnv.controllerStartFails = false) ∧
    Event.spawnListImages ∈ (start_app app0 baseEnv st0).trace :=
  ⟨(C7_background_task app0 baseEnv st0).1 true,
    ⟨by decide, by decide, by decide⟩,
    (C7_background_task app0 baseEnv st0).2.2.2 (by decide) (by decide)
      (by decide)⟩

/-- A wake-up scheduling appears in the startup trace exactly when it
appears among the preliminary statements: no later part of the run ever
schedules one. -/
theorem wakeup_mem_trace (app : App) (env : Env) (st : PMState) (n : Nat) :
    Event.scheduleWakeup n ∈ (start_app app env st).trace ↔
      Event.scheduleWakeup n ∈ preSteps env := by
  rcases start_app_cases app env st with ⟨hc, heq⟩ | ⟨hc, hg, heq⟩ |
    ⟨hc, hg, hs, heq⟩ | ⟨hc, hg, hs, heq⟩ <;> simp only [heq] <;> constructor
  · intro h
    rcases List.mem_append.mp h with h1 | h1
    · exact h1
    · simp at h1
  · exact fun h => List.mem_append_left _ h
  · intro h
    rcases List.mem_append.mp h with h1 | h1
    · exact h1
    · simp at h1
  · exact fun h => List.mem_append_left _ h
  · intro h
    rcases List.mem_append.mp h with h1 | h1
    · exact h1
    · simp at h1
  · exact fun h => List.mem_append_left _ h
  · intro h
    rcases List.mem_append.mp h with h1 | h1
    · rcases List.mem_append.mp h1 with h2 | h2
      · exact h2
      · simp at h2
    · have := (load_classify h1).2.2.2.2
      simp [isSchedWakeup] at this
  · exact fun h => List.mem_append_left _ (List.mem_append_left _ h)

/-- C8, counterexample: on a Windows platform the wake-up tick is indeed
scheduled at the 500 ms interval, but it is scheduled before everything
else, not after the module-loading step: the module injections do not
precede it. -/
theorem C8_counterexample :
    startsWithWin envWin.platform = true ∧
    Event.scheduleWakeup 500 ∈ (start_app app0 envWin st0).trace ∧
    Event.inject "dynamips" 0 ∈ (start_app app0 envWin st0).trace ∧
    ¬ precedes isInject isSchedWakeup (start_app app0 envWin st0).trace := by
  decide

/-- C8, amended: the recurring wake-up tick is scheduled exactly when the
platform name starts with "win", always with the fixed 500 ms interval, and
it is the first scheduling action of the run — it precedes even the
persistence connection, rather than following the module-loading step; on
any other platform no tick is ever scheduled. -/
theorem C8_wakeup_amended (app : App) (env : Env) (st : PMState) :
    ((Event.scheduleWakeup 500 ∈ (start_app app env st).trace) ↔
      startsWithWin env.platform = true) ∧
    (∀ n, Event.scheduleWakeup n ∈ (start_app app env st).trace → n = 500) ∧
    precedes isSchedWakeup isConnect (start_app app env st).trace := by
  refine ⟨(wakeup_mem_trace app env st 500).trans (wakeup_preSteps env).2,
    fun n h => (wakeup_preSteps env).1 n ((wakeup_mem_trace app env st n).mp h),
    ?_⟩
  rcases start_app_cases app env st with ⟨hc, heq⟩ | ⟨hc, hg, heq⟩ |
    ⟨hc, hg, hs, heq⟩ | ⟨hc, hg, hs, heq⟩ <;> simp only [heq]
  · refine precedes_of_split _ _ _ _ ?_ ?_
    · intro e he; exact (preSteps_classify he).1
    · intro e he; simp at he; subst he; rfl
  · refine precedes_of_split _ _ _ _ ?_ ?_
    · intro e he; exact (preSteps_classify he).1
    · intro e he; simp at he; rcases he with h | h <;> subst h <;> rfl
  · refine precedes_of_split _ _ _ _ ?_ ?_
    · intro e he; exact (preSteps_classify he).1
    · intro e he; simp at he; rcases he with h | h | h <;> subst h <;> rfl
  · refine precedes_congr
      (show preSteps env ++ [Event.connectToDb, Event.getComputes,
          Event.controllerStart env.computes, Event.qemuInstance,
          Event.spawnListImages] ++ (loadModules env st env.modules).1 =
        preSteps env ++ ([Event.connectToDb, Event.getComputes,
          Event.controllerStart env.computes, Event.qemuInstance,
          Event.spawnListImages] ++ (loadModules env st env.modules).1)
        by simp)
      (precedes_of_split _ _ _ _ ?_ ?_)
    · intro e he; exact (preSteps_classify he).1
    · intro e he
      rcases List.mem_append.mp he with h | h
      · simp at h; rcases h with h | h | h | h | h <;> subst h <;> rfl
      · exact (load_classify h).2.2.2.2

/-- C8, witness: the amended statement applied to a Windows run (tick
scheduled, before the persistence connection) and to a Linux run (no tick
scheduled). -/
theorem C8_wakeup_amended_witness :
    (startsWithWin envWin.platform = true ∧
      Event.scheduleWakeup 500 ∈ (start_app app0 envWin st0).trace) ∧
    (startsWithWin baseEnv.platform = false ∧
      Event.scheduleWakeup 500 ∉ (start_app app0 baseEnv st0).trace) ∧
    precedes isSchedWakeup isConnect (start_app app0 envWin st0).trace :=
  ⟨⟨by decide, (C8_wakeup_amended app0 envWin st0).1.mpr (by decide)⟩,
    ⟨by decide, fun h => by
      have := (C8_wakeup_amended app0 baseEnv st0).1.mp h
      revert this; decide⟩,
    (C8_wakeup_amended app0 envWin st0).2.2⟩

/-- C9, counterexample: a failure of descriptor loading — a step after the
persistence connection — is not isolated: the startup handler fails and
never reaches the module-loading step, although the persistence connection
itself succeeded. -/
theorem C9_counterexample :
    envC9.connectFails = false ∧ envC9.getComputesFails = true ∧
    (start_app app0 envC9 st0).ok = false ∧
    Event.getInstance "dynamips" ∉ (start_app app0 envC9 st0).trace := by
  decide

/-- C9, amended: every awaited startup step is fatal, not only the
persistence connection — an exception from the persistence connection, the
descriptor loading, `Controller.start`, or any module's singleton
acquisition propagates and the startup handler fails; only the
fire-and-forget background task's failure leaves the run unchanged. -/
theorem C9_fatality_amended (app : App) (env : Env) (st : PMState) :
    (env.connectFails = true → (start_app app env st).ok = false) ∧
    (env.getComputesFails = true → (start_app app env st).ok = false) ∧
    (env.controllerStartFails = true → (start_app app env st).ok = false) ∧
    (∀ m ∈ env.modules, env.instanceFails m = true →
      (start_app app env st).ok = false) ∧
    (∀ b, start_app app {env with listImagesFails := b} st =
      start_app app env st) := by
  refine ⟨?_, ?_, ?_, ?_, fun b => start_app_ignores_listImages app env st b⟩ <;>
    rcases start_app_cases app env st with ⟨hc, heq⟩ | ⟨hc, hg, heq⟩ |
      ⟨hc, hg, hs, heq⟩ | ⟨hc, hg, hs, heq⟩
  · intro _; simp [heq]
  · intro _; simp [heq]
  · intro _; simp [heq]
  · intro h; rw [h] at hc; exact Bool.noConfusion hc
  · intro _; simp [heq]
  · intro _; simp [heq]
  · intro _; simp [heq]
  · intro h; rw [h] at hg; exact Bool.noConfusion hg
  · intro _; simp [heq]
  · intro _; simp [heq]
  · intro _; simp [heq]
  · intro h; rw [h] at hs; exact Bool.noConfusion hs
  · intro m _ _; simp [heq]
  · intro m _ _; simp [heq]
  · intro m _ _; simp [heq]
  · intro m hm hf
    simp only [heq]
    exact loadModules_fail env st env.modules m hm hf

/-- C9, witness: the amended statement applied to a failing descriptor load
and to a failing persistence connection. -/
theorem C9_fatality_amended_witness :
    (envC9.connectFails = false ∧ envC9.getComputesFails = true) ∧
    (start_app app0 envC9 st0).ok = false ∧
    (start_app app0 { baseEnv with connectFails := true } st0).ok = false :=
  ⟨⟨by decide, by decide⟩,
    (C9_fatality_amended app0 envC9 st0).2.1 (by decide),
    (C9_fatality_amended app0 { baseEnv with connectFails := true } st0).1
      (by decide)⟩

/-- C10: the factory functions are effect-free — creating a handler emits
no event, and every lifecycle effect belongs to a run of the returned
coroutine: the returned handlers are exactly the run functions
`start_app app` and `shutdown_handler`. -/
theorem C10_factories_pure (app : App) :
    (create_startup_handler app).1 = [] ∧
    (create_shutdown_handler app).1 = [] ∧
    (∀ env st, (create_startup_handler app).2 env st = start_app app env st) ∧
    (∀ env, (create_shutdown_handler app).2 env = shutdown_handler env) :=
  ⟨rfl, rfl, fun _ _ => rfl, fun _ => rfl⟩

/-- C1, witness: the ordering statement applied to the base run. -/
theorem C1_startup_order_witness :
    precedes isConnect isGetComputes (start_app app0 baseEnv st0).trace ∧
    precedes isGetComputes isCtrlStart (start_app app0 baseEnv st0).trace ∧
    precedes isCtrlStart isModuleStep (start_app app0 baseEnv st0).trace ∧
    ∀ cs, Event.controllerStart cs ∈ (start_app app0 baseEnv st0).trace →
      cs = baseEnv.computes :=
  C1_startup_order app0 baseEnv st0
